import Mathlib

/-!
# Reconciliation core of the Elasticsearch operator

A shallow embedding of

* `pkg/controller/common/reconciler/reconciler.go` (`Params.CheckNilValues`,
  `ReconcileResource`),
* `pkg/controller/elasticsearch/services/services.go` (`ExternalServiceURL`,
  `ElasticsearchURL`),
* the part of `StatefulSetList` exercised by
  `pkg/controller/elasticsearch/sset/list_test.go`.

Go pointers are modelled by explicit state passing: the pointees of
`params.Expected` and `params.Reconciled` live in a `Heap`, together with the
state captured by the caller's closures; the API server behind `k8s.Client`
is a state of type `σ`.  Every client call and every callback invocation made
by the engine is appended to a ghost `trace`, so that "is invoked", "is never
invoked" and "in this order" are statements about that list.
-/

namespace Reconciler

/-! ## Data model -/

/-- The owner back-link of `metav1.OwnerReference`. -/
structure OwnerReference where
  Kind : String
  Name : String
  UID : String
  Controller : Bool
deriving DecidableEq, Repr

/-- The part of `metav1.ObjectMeta` the engine and its collaborators touch. -/
structure ObjectMeta where
  Namespace : String
  Name : String
  UID : String
  ResourceVersion : String
  OwnerReferences : List OwnerReference
deriving DecidableEq, Repr

/-- The contents of a resource record: the pointee of a `runtime.Object`. -/
structure Object where
  ObjectMeta : ObjectMeta
  Spec : String
  Status : String
deriving DecidableEq, Repr

/-- The dynamic Go type behind a `runtime.Object` interface value.  Whether the
type also implements `metav1.Object` is a property of the type, fixed for the
lifetime of the pointer. -/
structure GoType where
  name : String
  implementsMetaObject : Bool
deriving DecidableEq, Repr

/-- A non-nil `runtime.Object` interface value: its dynamic type and the
contents it points to when the call starts. -/
structure RuntimeObject where
  goType : GoType
  value : Object
deriving DecidableEq, Repr

/-- The key of `types.NamespacedName`. -/
structure NamespacedName where
  Namespace : String
  Name : String
deriving DecidableEq, Repr

/-- The `schema.GroupVersionKind` of a registered type. -/
structure GroupVersionKind where
  Group : String
  Version : String
  Kind : String
deriving DecidableEq, Repr

/-- The `runtime.Scheme`: the registered Go types with their kinds. -/
abbrev Scheme := List (String × GroupVersionKind)

/-- The `metav1.StatusReason` values the engine distinguishes. -/
inductive StatusReason where
  | NotFound
  | AlreadyExists
  | Conflict
  | Other
deriving DecidableEq, Repr

/-- Go `error` values: `errors.New` / `fmt.Errorf` messages, API status errors,
and `errors.Wrapf` around a cause. -/
inductive Error where
  | msg (text : String)
  | status (reason : StatusReason) (text : String)
  | wrap (cause : Error) (text : String)
deriving DecidableEq, Repr

/-- The check of `apierrors.IsNotFound`: a status error whose reason is NotFound. -/
def IsNotFound : Error → Bool
  | .status .NotFound _ => true
  | _ => false

/-- What one call does at the Go level: it returns an `error` (nil on success)
or it panics. -/
inductive Outcome where
  | returned (err : Option Error)
  | panicked
deriving DecidableEq, Repr

/-- The memory the callbacks can reach: the two pointees and the state captured
by the caller's closures. -/
structure Heap (κ : Type) where
  expected : Object
  reconciled : Object
  caller : κ

/-- The reply of one client call: the error (nil on success), the contents of
the object buffer after the call, and the state of the API server. -/
structure Reply (σ : Type) where
  err : Option Error
  obj : Object
  server : σ

/-- The three methods of `k8s.Client` the engine uses, over a server state `σ`.
Each receives the object buffer and may rewrite it in place. -/
structure Client (σ : Type) where
  Get : σ → NamespacedName → GoType → Object → Reply σ
  Create : σ → GoType → Object → Reply σ
  Update : σ → GoType → Object → Reply σ

/-- The calls and callback invocations made by the engine (ghost trace). -/
inductive Event where
  | Get (key : NamespacedName)
  | Create (obj : Object)
  | Update (obj : Object)
  | NeedsUpdate (result : Bool)
  | UpdateReconciled
  | PreCreate
  | PreUpdate
  | PostUpdate
deriving DecidableEq, Repr

/-- The parameter object of `ReconcileResource`.  A nil field is `none`. -/
structure Params (σ κ : Type) where
  Client : Option (Client σ)
  Scheme : Scheme
  Owner : Option RuntimeObject
  Expected : Option RuntimeObject
  Reconciled : Option RuntimeObject
  NeedsUpdate : Option (Heap κ → Bool × Heap κ)
  UpdateReconciled : Option (Heap κ → Heap κ)
  PreCreate : Option (Heap κ → Heap κ)
  PreUpdate : Option (Heap κ → Heap κ)
  PostUpdate : Option (Heap κ → Heap κ)

/-- The library calls made before the first client call, whose code lives
outside the repository: `apiutil.GVKForObject` and
`controllerutil.SetControllerReference` (which returns the metadata as it leaves
them, the owner reference stamped). -/
structure Lib where
  GVKForObject : GoType → Object → Scheme → Except Error GroupVersionKind
  SetControllerReference : RuntimeObject → ObjectMeta → Scheme → Except Error ObjectMeta

/-- What is observable once a call is over. -/
structure Run (σ κ : Type) where
  outcome : Outcome
  trace : List Event
  expected : Option Object
  reconciled : Option Object
  caller : κ
  server : σ

/-! ## The engine -/

/-- The method `Params.CheckNilValues` (reconciler.go, lines 51-66). -/
def Params.CheckNilValues {σ κ : Type} (p : Params σ κ) : Option Error :=
  if p.Reconciled.isNone then
    some (Error.msg "Reconciled must not be nil")
  else if p.UpdateReconciled.isNone then
    some (Error.msg "UpdateReconciled must not be nil")
  else if p.NeedsUpdate.isNone then
    some (Error.msg "NeedsUpdate must not be nil")
  else if p.Expected.isNone then
    some (Error.msg "Expected must not be nil")
  else
    none

/-- The call `meta.Accessor(obj)`: the metadata of an object whose type implements
`metav1.Object`, an error otherwise. -/
def Accessor (t : GoType) (o : Object) : Except Error ObjectMeta :=
  if t.implementsMetaObject then .ok o.ObjectMeta
  else .error (Error.msg "object does not implement the Object interfaces")

/-- An optional hook, `if hook != nil { hook() }`: when set it runs on the heap and
is recorded in the trace. -/
def callHook {κ : Type} (hook : Option (Heap κ → Heap κ)) (ev : Event)
    (h : Heap κ) (tr : List Event) : Heap κ × List Event :=
  match hook with
  | none => (h, tr)
  | some f => (f h, tr ++ [ev])

/-- The end of a call that reached the heap. -/
def finish {σ κ : Type} (out : Outcome) (tr : List Event) (h : Heap κ) (s : σ) : Run σ κ :=
  { outcome := out, trace := tr, expected := some h.expected,
    reconciled := some h.reconciled, caller := h.caller, server := s }

/-- The create branch of `ReconcileResource` (reconciler.go, lines 96-113). -/
def createPath {σ κ : Type} (p : Params σ κ) (c : Client σ) (te tr : GoType)
    (h : Heap κ) (s : σ) (trace : List Event) : Run σ κ :=
  let (h1, trace1) := callHook p.PreCreate Event.PreCreate h trace
  -- reflect.ValueOf(params.Reconciled).Elem().Set(expectedCopyValue)
  if te = tr then
    let h2 : Heap κ := { h1 with reconciled := h1.expected }
    let rep := c.Create s tr h2.reconciled
    let h3 : Heap κ := { h2 with reconciled := rep.obj }
    finish (.returned rep.err) (trace1 ++ [Event.Create h2.reconciled]) h3 rep.server
  else
    finish .panicked trace1 h1 s

/-- The update branch of `ReconcileResource` (reconciler.go, lines 119-134). -/
def updatePath {σ κ : Type} (p : Params σ κ) (c : Client σ) (tr : GoType)
    (nu : Heap κ → Bool × Heap κ) (ur : Heap κ → Heap κ)
    (h : Heap κ) (s : σ) (trace : List Event) : Run σ κ :=
  let (b, h1) := nu h
  let trace1 := trace ++ [Event.NeedsUpdate b]
  if b then
    let (h2, trace2) := callHook p.PreUpdate Event.PreUpdate h1 trace1
    let h3 := ur h2
    let rep := c.Update s tr h3.reconciled
    let h4 : Heap κ := { h3 with reconciled := rep.obj }
    let trace4 := trace2 ++ [Event.UpdateReconciled, Event.Update h3.reconciled]
    match rep.err with
    | some err => finish (.returned (some err)) trace4 h4 rep.server
    | none =>
      let (h5, trace5) := callHook p.PostUpdate Event.PostUpdate h4 trace4
      finish (.returned none) trace5 h5 rep.server
  else
    finish (.returned none) trace1 h1 s

/-- The owner block of `ReconcileResource` (reconciler.go, lines 87-91): without an
owner the metadata stay as they are, with one they are what
`SetControllerReference` makes of them. -/
def stampOwner (lib : Lib) (owner : Option RuntimeObject) (metaObj : ObjectMeta)
    (scheme : Scheme) : Except Error ObjectMeta :=
  match owner with
  | none => .ok metaObj
  | some o => lib.SetControllerReference o metaObj scheme

/-- The function `ReconcileResource` (reconciler.go, lines 70-135), run on the
server state `s` and the closure state `k`. -/
def ReconcileResource {σ κ : Type} (lib : Lib) (p : Params σ κ) (s : σ) (k : κ) : Run σ κ :=
  let stop (out : Outcome) : Run σ κ :=
    { outcome := out, trace := [], expected := p.Expected.map (·.value),
      reconciled := p.Reconciled.map (·.value), caller := k, server := s }
  match p.CheckNilValues with
  | some err => stop (.returned (some err))
  | none =>
    match p.Expected, p.Reconciled, p.NeedsUpdate, p.UpdateReconciled with
    | some e, some r, some nu, some ur =>
      let h0 : Heap κ := { expected := e.value, reconciled := r.value, caller := k }
      match Accessor e.goType h0.expected with
      | .error err => finish (.returned (some err)) [] h0 s
      | .ok metaObj =>
        let namespace_ := metaObj.Namespace
        let name := metaObj.Name
        match lib.GVKForObject e.goType h0.expected p.Scheme with
        | .error err => finish (.returned (some err)) [] h0 s
        | .ok gvk =>
          let kind := gvk.Kind
          match stampOwner lib p.Owner metaObj p.Scheme with
          | .error err => finish (.returned (some err)) [] h0 s
          | .ok m1 =>
            let h1 : Heap κ := { h0 with expected := { h0.expected with ObjectMeta := m1 } }
            match p.Client with
            | none => finish .panicked [] h1 s
            | some c =>
              let key : NamespacedName := { Name := name, Namespace := namespace_ }
              let rep := c.Get s key r.goType h1.reconciled
              let h2 : Heap κ := { h1 with reconciled := rep.obj }
              let trace := [Event.Get key]
              match rep.err with
              | some err =>
                if IsNotFound err then
                  createPath p c e.goType r.goType h2 rep.server trace
                else
                  finish (.returned (some (Error.wrap err
                    ("failed to get " ++ kind ++ " " ++ namespace_ ++ "/" ++ name)))) trace h2 rep.server
              | none => updatePath p c r.goType nu ur h2 rep.server trace
    | _, _, _, _ => stop .panicked

/-- The event is a call of `Client.Create`. -/
def Event.isCreate : Event → Bool
  | .Create _ => true
  | _ => false

/-- The event is a call of `Client.Update`. -/
def Event.isUpdate : Event → Bool
  | .Update _ => true
  | _ => false

/-- The event is a write against the platform: a Create or an Update. -/
def Event.isWrite (ev : Event) : Bool := ev.isCreate || ev.isUpdate

/-- The same Params handed in for the next call: the same pointers and closures,
the two pointees holding what the previous run left in them. -/
def Params.rebind {σ κ : Type} (p : Params σ κ) (run : Run σ κ) : Params σ κ :=
  { p with
    Expected := p.Expected.bind (fun e => run.expected.map (fun v => { e with value := v }))
    Reconciled := p.Reconciled.bind (fun r => run.reconciled.map (fun v => { r with value := v })) }

/-! ## A concrete platform

The API server as a store of records, and the two library calls as the
libraries document them.  The engine is proved correct against every `Client`
and every `Lib`; these instances serve where a claim speaks of a store and where
a statement is evaluated on concrete inputs. -/

/-- The key of a stored record: the name of its type with its namespace and name. -/
abbrev StoreKey := String × NamespacedName

/-- The records held by the API server, most recent write first. -/
abbrev Store := List (StoreKey × Object)

/-- The record stored under a key, if any. -/
def Store.find : Store → StoreKey → Option Object
  | [], _ => none
  | (k, o) :: rest, key => if k = key then some o else Store.find rest key

/-- The key under which an object of type `t` is stored. -/
def storeKey (t : GoType) (o : Object) : StoreKey :=
  (t.name, { Namespace := o.ObjectMeta.Namespace, Name := o.ObjectMeta.Name })

/-- A `k8s.Client` over a store.  Get fills the buffer with the stored record
or reports NotFound; Create refuses an existing key and otherwise stores the
record with its resource version assigned; Update replaces an existing record. -/
def storeClient : Client Store where
  Get := fun s key t buf =>
    match Store.find s (t.name, key) with
    | some o => { err := none, obj := o, server := s }
    | none => { err := some (Error.status .NotFound (key.Namespace ++ "/" ++ key.Name ++ " not found")),
                obj := buf, server := s }
  Create := fun s t o =>
    match Store.find s (storeKey t o) with
    | some _ => { err := some (Error.status .AlreadyExists
                    (o.ObjectMeta.Namespace ++ "/" ++ o.ObjectMeta.Name ++ " already exists")),
                  obj := o, server := s }
    | none =>
      let o1 : Object := { o with ObjectMeta := { o.ObjectMeta with ResourceVersion := "1" } }
      { err := none, obj := o1, server := (storeKey t o, o1) :: s }
  Update := fun s t o =>
    match Store.find s (storeKey t o) with
    | none => { err := some (Error.status .NotFound
                    (o.ObjectMeta.Namespace ++ "/" ++ o.ObjectMeta.Name ++ " not found")),
                obj := o, server := s }
    | some old =>
      let o1 : Object :=
        { o with ObjectMeta := { o.ObjectMeta with ResourceVersion := old.ObjectMeta.ResourceVersion ++ "+" } }
      { err := none, obj := o1, server := (storeKey t o, o1) :: s }

/-- The lookup of `apiutil.GVKForObject`: the kind registered for the type. -/
def schemeGVK (t : GoType) (scheme : Scheme) : Except Error GroupVersionKind :=
  match scheme.find? (fun e => e.1 = t.name) with
  | some e => .ok e.2
  | none => .error (Error.msg ("no kind is registered for the type " ++ t.name))

/-- The stamping of `controllerutil.SetControllerReference`: refused when another
controller already owns the object, otherwise the reference to the owner is
replaced in place or appended. -/
def stampControllerReference (owner : RuntimeObject) (m : ObjectMeta) (scheme : Scheme) :
    Except Error ObjectMeta :=
  match schemeGVK owner.goType scheme with
  | .error err => .error err
  | .ok gvk =>
    let ref : OwnerReference :=
      { Kind := gvk.Kind, Name := owner.value.ObjectMeta.Name,
        UID := owner.value.ObjectMeta.UID, Controller := true }
    let same (r : OwnerReference) : Bool := r.Kind = ref.Kind ∧ r.Name = ref.Name
    if m.OwnerReferences.any (fun r => !same r && r.Controller) then
      .error (Error.msg ("Object " ++ m.Namespace ++ "/" ++ m.Name ++ " is already owned by another controller"))
    else if m.OwnerReferences.any same then
      .ok { m with OwnerReferences := m.OwnerReferences.map (fun r => if same r then ref else r) }
    else
      .ok { m with OwnerReferences := m.OwnerReferences ++ [ref] }

/-- A client whose API server is unreachable: every call times out. -/
def downClient : Client Store where
  Get := fun s _ _ buf => { err := some (Error.status .Other "context deadline exceeded"), obj := buf, server := s }
  Create := fun s _ o => { err := some (Error.status .Other "context deadline exceeded"), obj := o, server := s }
  Update := fun s _ o => { err := some (Error.status .Other "context deadline exceeded"), obj := o, server := s }

/-- The two library calls as documented. -/
def stdLib : Lib where
  GVKForObject := fun t _ scheme => schemeGVK t scheme
  SetControllerReference := stampControllerReference

/-! ### Sample inputs -/

/-- The Go type of a Secret. -/
def secretType : GoType := { name := "*v1.Secret", implementsMetaObject := true }

/-- The Go type of the owning Elasticsearch resource. -/
def esType : GoType := { name := "*v1alpha1.Elasticsearch", implementsMetaObject := true }

/-- A scheme with both types registered. -/
def sampleScheme : Scheme :=
  [("*v1.Secret", { Group := "", Version := "v1", Kind := "Secret" }),
   ("*v1alpha1.Elasticsearch",
    { Group := "elasticsearch.k8s.elastic.co", Version := "v1alpha1", Kind := "Elasticsearch" })]

/-- The expected state of a Secret. -/
def sampleExpected : Object :=
  { ObjectMeta := { Namespace := "ns", Name := "es-secret", UID := "", ResourceVersion := "",
                    OwnerReferences := [] },
    Spec := "expected", Status := "" }

/-- An empty Secret, the buffer handed in as Reconciled. -/
def sampleEmpty : Object :=
  { ObjectMeta := { Namespace := "", Name := "", UID := "", ResourceVersion := "",
                    OwnerReferences := [] },
    Spec := "", Status := "" }

/-- The live state of the Secret, diverging from the expected one. -/
def sampleLive : Object :=
  { ObjectMeta := { Namespace := "ns", Name := "es-secret", UID := "u1", ResourceVersion := "7",
                    OwnerReferences := [] },
    Spec := "stale", Status := "" }

/-- The live state of the Secret once it matches the expected one. -/
def sampleSynced : Object :=
  { ObjectMeta := { Namespace := "ns", Name := "es-secret", UID := "u1", ResourceVersion := "8",
                    OwnerReferences := [] },
    Spec := "expected", Status := "" }

/-- The Reconciled buffer the sample caller hands in. -/
def sampleBuffer : RuntimeObject := { goType := secretType, value := sampleEmpty }

/-- A store holding one Secret under the sample key. -/
def sampleStore (o : Object) : Store := [(("*v1.Secret", { Namespace := "ns", Name := "es-secret" }), o)]

/-- The owning Elasticsearch resource. -/
def sampleOwner : RuntimeObject :=
  { goType := esType,
    value := { ObjectMeta := { Namespace := "ns", Name := "es", UID := "owner-uid",
                               ResourceVersion := "3", OwnerReferences := [] },
               Spec := "", Status := "" } }

/-- The closures of a typical caller: NeedsUpdate compares the two specs,
UpdateReconciled copies the expected spec over, and each hook counts its run in
the closure state. -/
def sampleParams (owner : Option RuntimeObject) (reconciled : Option RuntimeObject) :
    Params Store Nat :=
  { Client := some storeClient
    Scheme := sampleScheme
    Owner := owner
    Expected := some { goType := secretType, value := sampleExpected }
    Reconciled := reconciled
    NeedsUpdate := some (fun h => (decide (h.reconciled.Spec ≠ h.expected.Spec), h))
    UpdateReconciled := some (fun h => { h with reconciled := { h.reconciled with Spec := h.expected.Spec } })
    PreCreate := some (fun h => { h with caller := h.caller + 1 })
    PreUpdate := some (fun h => { h with caller := h.caller + 10 })
    PostUpdate := some (fun h => { h with caller := h.caller + 100 }) }

end Reconciler

namespace Services

/-! ## Service exposure: data model -/

/-- A Go `map[string]string` of labels, read through `Labels.get`. -/
abbrev Labels := List (String × String)

/-- The two-valued map read `v, ok := m[k]`: the value when the key is present. -/
def Labels.get : Labels → String → Option String
  | [], _ => none
  | (k, v) :: rest, key => if k = key then some v else Labels.get rest key

/-- The part of `corev1.Pod` the helper reads. -/
structure Pod where
  Name : String
  Namespace : String
  Labels : Labels
deriving DecidableEq, Repr

/-- The spec of the cluster, of which the helper reads the HTTP configuration. -/
structure ElasticsearchSpec (H : Type) where
  HTTP : H

/-- The part of `v1alpha1.Elasticsearch` the helper reads. -/
structure Elasticsearch (H : Type) where
  Name : String
  Namespace : String
  Spec : ElasticsearchSpec H

/-- What `services.go` takes from packages that are not among the sources: the
method `Scheme()` of the HTTP configuration, `name.HTTPService`, the constant
`network.HTTPPort` and `stringsutil.Concat`. -/
structure Deps (H : Type) where
  Scheme : H → String
  HTTPService : String → String
  HTTPPort : Nat
  Concat : List String → String

/-- The label key `label.HTTPSchemeLabelName` (label.go, line 49). -/
def HTTPSchemeLabelName : String := "elasticsearch.k8s.elastic.co/http-scheme"

/-- The label key `label.StatefulSetNameLabelName` (label.go, line 32). -/
def StatefulSetNameLabelName : String := "elasticsearch.k8s.elastic.co/statefulset"

/-- The constant `globalServiceSuffix` (services.go, line 25). -/
def globalServiceSuffix : String := ".svc"

/-- The function `ExternalServiceName` (services.go, lines 30-32). -/
def ExternalServiceName {H : Type} (d : Deps H) (esName : String) : String :=
  d.HTTPService esName

/-- The function `ExternalServiceURL` (services.go, lines 35-37). -/
def ExternalServiceURL {H : Type} (d : Deps H) (es : Elasticsearch H) : String :=
  d.Concat [d.Scheme es.Spec.HTTP, "://", ExternalServiceName d es.Name, ".", es.Namespace,
    globalServiceSuffix, ":", toString d.HTTPPort]

/-- The call `rand.Intn(n)`: a value in `[0, n)`, and a panic (`none`) when
`n <= 0`.  The number `src` stands for the state of the random source: as it
ranges over the naturals, every value below `n` is drawn. -/
def Intn (src : Nat) (n : Nat) : Option Nat :=
  if 0 < n then some (src % n) else none

/-- The loop of `ElasticsearchURL` (services.go, lines 100-107): whether some pod
carries a scheme label that differs from the scheme of the spec. -/
def schemeChange {H : Type} (d : Deps H) (es : Elasticsearch H) (pods : List Pod) : Bool :=
  pods.foldl (fun change p =>
    match p.Labels.get HTTPSchemeLabelName with
    | some scheme => if scheme ≠ d.Scheme es.Spec.HTTP then true else change
    | none => change) false

/-- The address `fmt.Sprintf("%s://%s.%s.%s:%d", ...)` of one pod (services.go,
line 114). -/
def podURL (scheme : String) (p : Pod) (sset : String) (port : Nat) : String :=
  scheme ++ "://" ++ p.Name ++ "." ++ sset ++ "." ++ p.Namespace ++ ":" ++ toString port

/-- The function `ElasticsearchURL` (services.go, lines 99-118); `none` is a
panic, of `rand.Intn` or of the indexing. -/
def ElasticsearchURL {H : Type} (d : Deps H) (es : Elasticsearch H) (pods : List Pod)
    (src : Nat) : Option String :=
  if schemeChange d es pods then
    match Intn src pods.length with
    | none => none
    | some i =>
      match pods[i]? with
      | none => none
      | some randomPod =>
        match randomPod.Labels.get HTTPSchemeLabelName,
              randomPod.Labels.get StatefulSetNameLabelName with
        | some scheme, some sset => some (podURL scheme randomPod sset d.HTTPPort)
        | _, _ => some (ExternalServiceURL d es)
  else
    some (ExternalServiceURL d es)

/-! ### Sample inputs -/

/-- The collaborators as the operator has them: the scheme follows the TLS
switch, the HTTP service is named after the cluster, the port is 9200. -/
def sampleDeps : Deps Bool where
  Scheme := fun tls => if tls then "https" else "http"
  HTTPService := fun esName => esName ++ "-es-http"
  HTTPPort := 9200
  Concat := String.join

/-- A cluster whose spec declares https. -/
def sampleES : Elasticsearch Bool := { Name := "es", Namespace := "ns", Spec := { HTTP := true } }

/-- A pod still labelled http, with its StatefulSet label. -/
def podHTTP : Pod :=
  { Name := "es-default-0", Namespace := "ns",
    Labels := [(HTTPSchemeLabelName, "http"), (StatefulSetNameLabelName, "es-default")] }

/-- A pod labelled https, with its StatefulSet label. -/
def podHTTPS : Pod :=
  { Name := "es-default-1", Namespace := "ns",
    Labels := [(HTTPSchemeLabelName, "https"), (StatefulSetNameLabelName, "es-default")] }

/-- A pod that carries neither label. -/
def podBare : Pod := { Name := "es-old-0", Namespace := "ns", Labels := [] }

end Services

namespace Label

/-! ## Labels -/

/-- The label key `VersionLabelName` (label.go, line 28). -/
def VersionLabelName : String := "elasticsearch.k8s.elastic.co/version"

/-- The function `ExtractVersion` (label.go, lines 80-90).  The parser
`version.Parse`, whose package is not among the sources, is the parameter
`Parse`; an error result carries no version, as the Go pair `(nil, err)`. -/
def ExtractVersion {V : Type} (Parse : String → Except Reconciler.Error V)
    (labels : Services.Labels) : Except Reconciler.Error V :=
  match labels.get VersionLabelName with
  | none => .error (Reconciler.Error.msg ("version label " ++ VersionLabelName ++ " is missing"))
  | some labelValue =>
    match Parse labelValue with
    | .error err =>
      .error (Reconciler.Error.wrap err
        ("version label " ++ VersionLabelName ++ " is invalid: " ++ labelValue))
    | .ok v => .ok v

end Label

namespace Sset

/-! ## StatefulSet lists -/

/-- The part of `appsv1.StatefulSetStatus` the list functions read. -/
structure StatefulSetStatus where
  CurrentRevision : String
  UpdateRevision : String
deriving DecidableEq, Repr

/-- The part of `appsv1.StatefulSet` the list functions read. -/
structure StatefulSet where
  Name : String
  Replicas : Nat
  Status : StatefulSetStatus
  -- the labels of the pod template, Spec.Template.Labels
  TemplateLabels : Services.Labels := []
deriving DecidableEq, Repr

/-- The type `StatefulSetList`. -/
abbrev StatefulSetList := List StatefulSet

/-- Modelled from the spec: `StatefulSetList.ToUpdate`, whose file `sset/list.go`
is not among the sources (only its test is).  The spec has it return "the subset
of groups whose update-revision is non-empty and differs from their
current-revision, preserving input order"; it is written here as the loop that
appends each such StatefulSet to the result. -/
def StatefulSetList.ToUpdate (l : StatefulSetList) : StatefulSetList :=
  l.foldl (fun toUpdate s =>
    if s.Status.UpdateRevision ≠ "" ∧ s.Status.UpdateRevision ≠ s.Status.CurrentRevision then
      toUpdate ++ [s]
    else toUpdate) []

/-- The StatefulSet `toUpdate1` of `TestStatefulSetList_ToUpdate`. -/
def toUpdate1 : StatefulSet :=
  { Name := "toUpdate1", Replicas := 0,
    Status := { UpdateRevision := "update-rev", CurrentRevision := "current-rev" } }

/-- The StatefulSet `toUpdate2` of the test. -/
def toUpdate2 : StatefulSet :=
  { Name := "toUpdate2", Replicas := 0,
    Status := { UpdateRevision := "update-rev", CurrentRevision := "current-rev" } }

/-- The StatefulSet `noUpdateRev` of the test. -/
def noUpdateRev : StatefulSet :=
  { Name := "noUpdateRev", Replicas := 0,
    Status := { UpdateRevision := "", CurrentRevision := "current-rev" } }

/-- The StatefulSet `updateMatchCurrent` of the test. -/
def updateMatchCurrent : StatefulSet :=
  { Name := "noUpdateRev", Replicas := 0,
    Status := { UpdateRevision := "update-rev", CurrentRevision := "update-rev" } }

/-! ### Version predicates -/

/-- Modelled from the spec: `ESVersionMatch`, whose file `sset/list.go` is not among
the sources.  The spec has it "true iff the group's template declares a version
label satisfying `predicate`; fails closed (false) rather than erroring if the
label is absent or unparseable"; the version is read with `label.ExtractVersion`. -/
def ESVersionMatch {V : Type} (Parse : String → Except Reconciler.Error V)
    (statefulSet : StatefulSet) (condition : V → Bool) : Bool :=
  match Label.ExtractVersion Parse statefulSet.TemplateLabels with
  | .error _ => false
  | .ok v => condition v

/-- The part of `version.Version` the tests read. -/
structure Version where
  Major : Nat
  Minor : Nat
  Patch : Nat
deriving DecidableEq, Repr

/-- A parser for the two version strings of the tests; every other string is
refused. -/
def sampleParse : String → Except Reconciler.Error Version :=
  fun labelValue =>
    if labelValue = "7.1.0" then .ok { Major := 7, Minor := 1, Patch := 0 }
    else if labelValue = "6.8.0" then .ok { Major := 6, Minor := 8, Patch := 0 }
    else .error (Reconciler.Error.msg ("Invalid version: " ++ labelValue))

/-- The StatefulSet `ssetv7` of `list_test.go` (lines 22-32). -/
def ssetv7 : StatefulSet :=
  { Name := "", Replicas := 0, Status := { CurrentRevision := "", UpdateRevision := "" },
    TemplateLabels := [(Label.VersionLabelName, "7.1.0")] }

end Sset

namespace Reconciler

/-! ## The validation gate -/

/-- C1: when one of Expected, Reconciled, NeedsUpdate or UpdateReconciled is nil,
`ReconcileResource` returns the error of `CheckNilValues`, makes no client call and
runs no callback (the trace is empty, the server, the closure state and both
objects are as before); and `CheckNilValues` returns nil exactly when all four
are set. -/
theorem validation_gate {σ κ : Type} (lib : Lib) (p : Params σ κ) (s : σ) (k : κ)
    (h : p.Expected = none ∨ p.Reconciled = none ∨ p.NeedsUpdate = none ∨
      p.UpdateReconciled = none) :
    (∃ err, p.CheckNilValues = some err ∧
      (ReconcileResource lib p s k).outcome = Outcome.returned (some err)) ∧
    (ReconcileResource lib p s k).trace = [] ∧
    (ReconcileResource lib p s k).server = s ∧
    (ReconcileResource lib p s k).caller = k ∧
    (ReconcileResource lib p s k).expected = p.Expected.map (·.value) ∧
    (ReconcileResource lib p s k).reconciled = p.Reconciled.map (·.value) ∧
    (∀ q : Params σ κ, q.CheckNilValues = none ↔
      (q.Expected ≠ none ∧ q.Reconciled ≠ none ∧ q.NeedsUpdate ≠ none ∧
        q.UpdateReconciled ≠ none)) := by
  have hiff : ∀ q : Params σ κ, q.CheckNilValues = none ↔
      (q.Expected ≠ none ∧ q.Reconciled ≠ none ∧ q.NeedsUpdate ≠ none ∧
        q.UpdateReconciled ≠ none) := by
    intro q
    unfold Params.CheckNilValues
    cases q.Expected <;> cases q.Reconciled <;> cases q.NeedsUpdate <;>
      cases q.UpdateReconciled <;> simp
  have hne : p.CheckNilValues ≠ none := by
    intro hn
    obtain ⟨h1, h2, h3, h4⟩ := (hiff p).1 hn
    rcases h with h | h | h | h
    · exact h1 h
    · exact h2 h
    · exact h3 h
    · exact h4 h
  obtain ⟨err, herr⟩ := Option.ne_none_iff_exists'.1 hne
  refine ⟨⟨err, herr, ?_⟩, ?_, ?_, ?_, ?_, ?_, hiff⟩ <;> simp [ReconcileResource, herr]

/-- C1, on a call that hands in no Reconciled. -/
theorem validation_gate_witness :
    (sampleParams none none).Reconciled = none ∧
    (ReconcileResource stdLib (sampleParams none none) [] 0).trace = [] :=
  ⟨rfl, (validation_gate stdLib (sampleParams none none) [] 0 (Or.inr (Or.inl rfl))).2.1⟩

/-! ## The three paths after Get

In the statements below `e` and `r` are the Expected and Reconciled handed in,
`gvk` the kind resolved for Expected, `m1` the metadata of Expected once the
owner block has run, and `rep` the reply of the Get issued for Expected's
namespace and name into the Reconciled buffer. -/

/-- C2: when Get finds the live resource and NeedsUpdate returns false, the call
succeeds with the trace Get, NeedsUpdate and nothing else: no hook, no
UpdateReconciled, no Create, no Update.  The server is as Get left it and the
heap as NeedsUpdate left it, so Reconciled is what Get populated whenever
NeedsUpdate itself only reads. -/
theorem no_write_when_up_to_date {σ κ : Type} (lib : Lib) (p : Params σ κ) (s : σ) (k : κ)
    (c : Client σ) (e r : RuntimeObject) (nu : Heap κ → Bool × Heap κ) (ur : Heap κ → Heap κ)
    (gvk : GroupVersionKind) (m1 : ObjectMeta) (rep : Reply σ) (h1 : Heap κ)
    (hC : p.Client = some c) (hE : p.Expected = some e) (hR : p.Reconciled = some r)
    (hNU : p.NeedsUpdate = some nu) (hUR : p.UpdateReconciled = some ur)
    (hmeta : e.goType.implementsMetaObject = true)
    (hgvk : lib.GVKForObject e.goType e.value p.Scheme = .ok gvk)
    (hown : stampOwner lib p.Owner e.value.ObjectMeta p.Scheme = .ok m1)
    (hget : c.Get s { Namespace := e.value.ObjectMeta.Namespace, Name := e.value.ObjectMeta.Name }
      r.goType r.value = rep)
    (hfound : rep.err = none)
    (hnu : nu { expected := { e.value with ObjectMeta := m1 }, reconciled := rep.obj, caller := k }
      = (false, h1)) :
    (ReconcileResource lib p s k).outcome = Outcome.returned none ∧
    (ReconcileResource lib p s k).trace =
      [Event.Get { Namespace := e.value.ObjectMeta.Namespace, Name := e.value.ObjectMeta.Name },
       Event.NeedsUpdate false] ∧
    (ReconcileResource lib p s k).trace.countP Event.isWrite = 0 ∧
    (ReconcileResource lib p s k).server = rep.server ∧
    (ReconcileResource lib p s k).expected = some h1.expected ∧
    (ReconcileResource lib p s k).reconciled = some h1.reconciled ∧
    (ReconcileResource lib p s k).caller = h1.caller ∧
    (h1.reconciled = rep.obj → (ReconcileResource lib p s k).reconciled = some rep.obj) := by
  subst hget
  have hrun : ReconcileResource lib p s k =
      finish (Outcome.returned none)
        [Event.Get { Namespace := e.value.ObjectMeta.Namespace, Name := e.value.ObjectMeta.Name },
         Event.NeedsUpdate false] h1
        (c.Get s { Namespace := e.value.ObjectMeta.Namespace, Name := e.value.ObjectMeta.Name }
          r.goType r.value).server := by
    simp [ReconcileResource, Params.CheckNilValues, hC, hE, hR, hNU, hUR, Accessor, hmeta, hgvk,
      hown, hfound, updatePath, hnu]
  rw [hrun]
  refine ⟨rfl, rfl, rfl, rfl, rfl, rfl, rfl, ?_⟩
  intro hq
  simp [finish, hq]

/-- C2, on a Secret whose live state already matches. -/
theorem no_write_when_up_to_date_witness :
    (ReconcileResource stdLib (sampleParams none (some sampleBuffer)) (sampleStore sampleSynced) 0).trace =
      [Event.Get { Namespace := "ns", Name := "es-secret" }, Event.NeedsUpdate false] ∧
    (ReconcileResource stdLib (sampleParams none (some sampleBuffer)) (sampleStore sampleSynced) 0).reconciled =
      some sampleSynced :=
  have h := no_write_when_up_to_date stdLib (sampleParams none (some sampleBuffer))
    (sampleStore sampleSynced) 0 storeClient { goType := secretType, value := sampleExpected }
    sampleBuffer _ _ { Group := "", Version := "v1", Kind := "Secret" } sampleExpected.ObjectMeta
    { err := none, obj := sampleSynced, server := sampleStore sampleSynced }
    { expected := sampleExpected, reconciled := sampleSynced, caller := 0 }
    rfl rfl rfl rfl rfl rfl rfl rfl rfl rfl rfl
  ⟨h.2.1, h.2.2.2.2.2.1⟩

/-- C3: when Get finds the live resource and NeedsUpdate returns true, the trace
is Get, NeedsUpdate, PreUpdate (if set), UpdateReconciled, Update, PostUpdate
(if set and Update succeeded), in this order and nothing else.  The object
handed to Update is Reconciled as UpdateReconciled left it after PreUpdate,
PostUpdate is in the trace exactly when it is set and Update succeeded, and the
call returns what Update returned: nil, or its error unwrapped.  The heap at the
end is the work of exactly these steps: PreUpdate (if set) then
UpdateReconciled on the heap NeedsUpdate left, Reconciled as Update filled it,
and PostUpdate (if set) on top of that when Update succeeded and not when it
failed. -/
theorem update_path_order {σ κ : Type} (lib : Lib) (p : Params σ κ) (s : σ) (k : κ)
    (c : Client σ) (e r : RuntimeObject) (nu : Heap κ → Bool × Heap κ) (ur : Heap κ → Heap κ)
    (gvk : GroupVersionKind) (m1 : ObjectMeta) (rep urep : Reply σ) (h1 h4 h5 : Heap κ)
    (hC : p.Client = some c) (hE : p.Expected = some e) (hR : p.Reconciled = some r)
    (hNU : p.NeedsUpdate = some nu) (hUR : p.UpdateReconciled = some ur)
    (hmeta : e.goType.implementsMetaObject = true)
    (hgvk : lib.GVKForObject e.goType e.value p.Scheme = .ok gvk)
    (hown : stampOwner lib p.Owner e.value.ObjectMeta p.Scheme = .ok m1)
    (hget : c.Get s { Namespace := e.value.ObjectMeta.Namespace, Name := e.value.ObjectMeta.Name }
      r.goType r.value = rep)
    (hfound : rep.err = none)
    (hnu : nu { expected := { e.value with ObjectMeta := m1 }, reconciled := rep.obj, caller := k }
      = (true, h1))
    (hupd : c.Update rep.server r.goType (ur (p.PreUpdate.getD id h1)).reconciled = urep)
    (hwritten : { ur (p.PreUpdate.getD id h1) with reconciled := urep.obj } = h4)
    (hpost : (if urep.err.isNone then p.PostUpdate.getD id h4 else h4) = h5) :
    (ReconcileResource lib p s k).trace =
      [Event.Get { Namespace := e.value.ObjectMeta.Namespace, Name := e.value.ObjectMeta.Name },
       Event.NeedsUpdate true]
      ++ (if p.PreUpdate.isSome then [Event.PreUpdate] else [])
      ++ [Event.UpdateReconciled, Event.Update (ur (p.PreUpdate.getD id h1)).reconciled]
      ++ (if p.PostUpdate.isSome && urep.err.isNone then [Event.PostUpdate] else []) ∧
    (Event.PostUpdate ∈ (ReconcileResource lib p s k).trace ↔
      (p.PostUpdate.isSome = true ∧ urep.err = none)) ∧
    (ReconcileResource lib p s k).outcome = Outcome.returned urep.err ∧
    (ReconcileResource lib p s k).server = urep.server ∧
    (ReconcileResource lib p s k).expected = some h5.expected ∧
    (ReconcileResource lib p s k).reconciled = some h5.reconciled ∧
    (ReconcileResource lib p s k).caller = h5.caller := by
  subst hget
  subst hwritten
  cases hpre : p.PreUpdate <;> cases hpo : p.PostUpdate <;> rw [hpre] at hupd hpost <;>
    rw [hpo] at hpost <;>
    simp only [Option.getD_none, Option.getD_some, id] at hupd hpost <;>
    cases herr : urep.err <;> rw [herr] at hpost <;>
    simp only [Option.isNone_none, Option.isNone_some, if_true, Bool.false_eq_true,
      if_false, ite_self] at hpost <;>
    subst hpost <;>
    simp [ReconcileResource, Params.CheckNilValues, hC, hE, hR, hNU, hUR, Accessor, hmeta, hgvk,
      hown, hfound, updatePath, hnu, hupd, herr, hpre, hpo, callHook, finish]

/-- C3, on a Secret whose live state diverges: all six effects in order, the
Secret brought to the expected spec and stored, and both hooks counted in the
closure state (10 for PreUpdate, 100 for PostUpdate). -/
theorem update_path_order_witness :
    (ReconcileResource stdLib (sampleParams none (some sampleBuffer)) (sampleStore sampleLive) 0).trace =
      [Event.Get { Namespace := "ns", Name := "es-secret" }, Event.NeedsUpdate true, Event.PreUpdate,
       Event.UpdateReconciled, Event.Update { sampleLive with Spec := "expected" },
       Event.PostUpdate] ∧
    (ReconcileResource stdLib (sampleParams none (some sampleBuffer)) (sampleStore sampleLive) 0).reconciled =
      some { sampleLive with
        Spec := "expected"
        ObjectMeta := { sampleLive.ObjectMeta with ResourceVersion := "7+" } } ∧
    (ReconcileResource stdLib (sampleParams none (some sampleBuffer)) (sampleStore sampleLive) 0).caller =
      110 :=
  have h := update_path_order stdLib (sampleParams none (some sampleBuffer)) (sampleStore sampleLive) 0
    storeClient { goType := secretType, value := sampleExpected } sampleBuffer _ _
    { Group := "", Version := "v1", Kind := "Secret" } sampleExpected.ObjectMeta
    { err := none, obj := sampleLive, server := sampleStore sampleLive } _
    { expected := sampleExpected, reconciled := sampleLive, caller := 0 } _ _
    rfl rfl rfl rfl rfl rfl rfl rfl rfl rfl rfl rfl rfl rfl
  ⟨h.1, h.2.2.2.2.2.1, h.2.2.2.2.2.2⟩

/-- C4: when Get reports not-found (and Reconciled has the type of Expected, so
that the copy is defined), the trace is Get, PreCreate (if set), Create and
nothing else: one Create, no NeedsUpdate, UpdateReconciled, PreUpdate, Update or
PostUpdate.  The object handed to Create is the full state of Expected, the call
returns what Create returned (nil, or its error unwrapped), Reconciled is the
object as Create left it and Expected still holds the state that was copied. -/
theorem create_path {σ κ : Type} (lib : Lib) (p : Params σ κ) (s : σ) (k : κ)
    (c : Client σ) (e r : RuntimeObject) (nu : Heap κ → Bool × Heap κ) (ur : Heap κ → Heap κ)
    (gvk : GroupVersionKind) (m1 : ObjectMeta) (rep crep : Reply σ) (ge : Error) (h1 : Heap κ)
    (hC : p.Client = some c) (hE : p.Expected = some e) (hR : p.Reconciled = some r)
    (hNU : p.NeedsUpdate = some nu) (hUR : p.UpdateReconciled = some ur)
    (hmeta : e.goType.implementsMetaObject = true)
    (hgvk : lib.GVKForObject e.goType e.value p.Scheme = .ok gvk)
    (hown : stampOwner lib p.Owner e.value.ObjectMeta p.Scheme = .ok m1)
    (hget : c.Get s { Namespace := e.value.ObjectMeta.Namespace, Name := e.value.ObjectMeta.Name }
      r.goType r.value = rep)
    (herr : rep.err = some ge) (hnf : IsNotFound ge = true)
    (hty : e.goType = r.goType)
    (hpre : p.PreCreate.getD id
      { expected := { e.value with ObjectMeta := m1 }, reconciled := rep.obj, caller := k } = h1)
    (hcreate : c.Create rep.server r.goType h1.expected = crep) :
    (ReconcileResource lib p s k).trace =
      [Event.Get { Namespace := e.value.ObjectMeta.Namespace, Name := e.value.ObjectMeta.Name }]
      ++ (if p.PreCreate.isSome then [Event.PreCreate] else [])
      ++ [Event.Create h1.expected] ∧
    (ReconcileResource lib p s k).trace.countP Event.isCreate = 1 ∧
    (ReconcileResource lib p s k).outcome = Outcome.returned crep.err ∧
    (ReconcileResource lib p s k).server = crep.server ∧
    (ReconcileResource lib p s k).expected = some h1.expected ∧
    (ReconcileResource lib p s k).reconciled = some crep.obj ∧
    (ReconcileResource lib p s k).caller = h1.caller := by
  subst hget
  rw [hty] at hmeta hgvk
  cases hp : p.PreCreate <;> rw [hp] at hpre <;>
    simp only [Option.getD_none, Option.getD_some, id] at hpre <;>
    simp [ReconcileResource, Params.CheckNilValues, hC, hE, hR, hNU, hUR, Accessor, hmeta, hgvk,
      hown, herr, hnf, hty, createPath, hpre, hcreate, hp, callHook, finish, Event.isCreate,
      List.countP_cons]

/-- C4, on an empty store: the Secret is created from Expected. -/
theorem create_path_witness :
    (ReconcileResource stdLib (sampleParams none (some sampleBuffer)) [] 0).trace =
      [Event.Get { Namespace := "ns", Name := "es-secret" }, Event.PreCreate,
       Event.Create sampleExpected] ∧
    (ReconcileResource stdLib (sampleParams none (some sampleBuffer)) [] 0).outcome =
      Outcome.returned none :=
  have h := create_path stdLib (sampleParams none (some sampleBuffer)) [] 0
    storeClient { goType := secretType, value := sampleExpected } sampleBuffer _ _
    { Group := "", Version := "v1", Kind := "Secret" } sampleExpected.ObjectMeta
    { err := some (Error.status .NotFound "ns/es-secret not found"), obj := sampleEmpty, server := [] }
    _ (Error.status .NotFound "ns/es-secret not found")
    { expected := sampleExpected, reconciled := sampleEmpty, caller := 1 }
    rfl rfl rfl rfl rfl rfl rfl rfl rfl rfl rfl rfl rfl rfl
  ⟨h.1, h.2.2.1⟩

/-- The panic documented at the reflect copy (reconciler.go, line 105): on the
create path, a Reconciled whose type differs from that of Expected makes the
call panic before any Create. -/
theorem create_path_type_mismatch {σ κ : Type} (lib : Lib) (p : Params σ κ) (s : σ) (k : κ)
    (c : Client σ) (e r : RuntimeObject) (nu : Heap κ → Bool × Heap κ) (ur : Heap κ → Heap κ)
    (gvk : GroupVersionKind) (m1 : ObjectMeta) (rep : Reply σ) (ge : Error)
    (hC : p.Client = some c) (hE : p.Expected = some e) (hR : p.Reconciled = some r)
    (hNU : p.NeedsUpdate = some nu) (hUR : p.UpdateReconciled = some ur)
    (hmeta : e.goType.implementsMetaObject = true)
    (hgvk : lib.GVKForObject e.goType e.value p.Scheme = .ok gvk)
    (hown : stampOwner lib p.Owner e.value.ObjectMeta p.Scheme = .ok m1)
    (hget : c.Get s { Namespace := e.value.ObjectMeta.Namespace, Name := e.value.ObjectMeta.Name }
      r.goType r.value = rep)
    (herr : rep.err = some ge) (hnf : IsNotFound ge = true)
    (hty : e.goType ≠ r.goType) :
    (ReconcileResource lib p s k).outcome = Outcome.panicked ∧
    (ReconcileResource lib p s k).trace.countP Event.isCreate = 0 := by
  subst hget
  cases hp : p.PreCreate <;>
    simp [ReconcileResource, Params.CheckNilValues, hC, hE, hR, hNU, hUR, Accessor, hmeta, hgvk,
      hown, herr, hnf, hty, createPath, hp, callHook, finish, Event.isCreate, List.countP_cons]

/-- C7: when Get fails with an error that is not NotFound, the call returns that
error wrapped with the message "failed to get <kind> <namespace>/<name>", built
from the kind resolved for Expected and from Expected's namespace and name.  Get
is the only entry of the trace: no Create, no Update, no hook, no NeedsUpdate, no
UpdateReconciled. -/
theorem get_failure_wrapped {σ κ : Type} (lib : Lib) (p : Params σ κ) (s : σ) (k : κ)
    (c : Client σ) (e r : RuntimeObject) (nu : Heap κ → Bool × Heap κ) (ur : Heap κ → Heap κ)
    (gvk : GroupVersionKind) (m1 : ObjectMeta) (rep : Reply σ) (ge : Error)
    (hC : p.Client = some c) (hE : p.Expected = some e) (hR : p.Reconciled = some r)
    (hNU : p.NeedsUpdate = some nu) (hUR : p.UpdateReconciled = some ur)
    (hmeta : e.goType.implementsMetaObject = true)
    (hgvk : lib.GVKForObject e.goType e.value p.Scheme = .ok gvk)
    (hown : stampOwner lib p.Owner e.value.ObjectMeta p.Scheme = .ok m1)
    (hget : c.Get s { Namespace := e.value.ObjectMeta.Namespace, Name := e.value.ObjectMeta.Name }
      r.goType r.value = rep)
    (herr : rep.err = some ge) (hnf : IsNotFound ge = false) :
    (ReconcileResource lib p s k).outcome =
      Outcome.returned (some (Error.wrap ge
        ("failed to get " ++ gvk.Kind ++ " " ++ e.value.ObjectMeta.Namespace ++ "/" ++
          e.value.ObjectMeta.Name))) ∧
    (ReconcileResource lib p s k).trace =
      [Event.Get { Namespace := e.value.ObjectMeta.Namespace, Name := e.value.ObjectMeta.Name }] ∧
    (ReconcileResource lib p s k).server = rep.server := by
  subst hget
  simp [ReconcileResource, Params.CheckNilValues, hC, hE, hR, hNU, hUR, Accessor, hmeta, hgvk,
    hown, herr, hnf, finish]

/-- C7, against an unreachable API server. -/
theorem get_failure_wrapped_witness :
    (ReconcileResource stdLib
      { sampleParams none (some sampleBuffer) with Client := some downClient } [] 0).outcome =
      Outcome.returned (some (Error.wrap (Error.status .Other "context deadline exceeded")
        "failed to get Secret ns/es-secret")) ∧
    (ReconcileResource stdLib
      { sampleParams none (some sampleBuffer) with Client := some downClient } [] 0).trace =
      [Event.Get { Namespace := "ns", Name := "es-secret" }] :=
  have h := get_failure_wrapped stdLib
    { sampleParams none (some sampleBuffer) with Client := some downClient } [] 0
    downClient { goType := secretType, value := sampleExpected } sampleBuffer _ _
    { Group := "", Version := "v1", Kind := "Secret" } sampleExpected.ObjectMeta
    { err := some (Error.status .Other "context deadline exceeded"), obj := sampleEmpty, server := [] }
    (Error.status .Other "context deadline exceeded")
    rfl rfl rfl rfl rfl rfl rfl rfl rfl rfl rfl
  ⟨h.1, h.2.1⟩

/-! ## Expected across a call -/

/-- An optional hook that does not write to Expected leaves it as it was. -/
theorem callHook_expected {κ : Type} (hook : Option (Heap κ → Heap κ)) (ev : Event)
    (h : Heap κ) (tr : List Event)
    (hk : ∀ f, hook = some f → ∀ x, (f x).expected = x.expected) :
    (callHook hook ev h tr).1.expected = h.expected := by
  cases hook with
  | none => rfl
  | some f => exact hk f rfl h

/-- The create branch does not write to Expected. -/
theorem createPath_expected {σ κ : Type} (p : Params σ κ) (c : Client σ) (te tr : GoType)
    (h : Heap κ) (s : σ) (trace : List Event)
    (hPC : ∀ f, p.PreCreate = some f → ∀ x, (f x).expected = x.expected) :
    (createPath p c te tr h s trace).expected = some h.expected := by
  have h1 := callHook_expected p.PreCreate Event.PreCreate h trace hPC
  unfold createPath
  by_cases hty : te = tr <;> simp [hty, finish, h1]

/-- The update branch does not write to Expected. -/
theorem updatePath_expected {σ κ : Type} (p : Params σ κ) (c : Client σ) (tr : GoType)
    (nu : Heap κ → Bool × Heap κ) (ur : Heap κ → Heap κ) (h : Heap κ) (s : σ)
    (trace : List Event)
    (hNU : ∀ x, (nu x).2.expected = x.expected)
    (hUR : ∀ x, (ur x).expected = x.expected)
    (hPU : ∀ f, p.PreUpdate = some f → ∀ x, (f x).expected = x.expected)
    (hPO : ∀ f, p.PostUpdate = some f → ∀ x, (f x).expected = x.expected) :
    (updatePath p c tr nu ur h s trace).expected = some h.expected := by
  unfold updatePath
  cases hb : (nu h).1 with
  | false => simp [hb, finish, hNU]
  | true =>
    have e2 := callHook_expected p.PreUpdate Event.PreUpdate (nu h).2
      (trace ++ [Event.NeedsUpdate true]) hPU
    simp only [hb, if_true]
    split
    · simp [finish, hUR, e2, hNU]
    · have e5 := fun y t => callHook_expected p.PostUpdate Event.PostUpdate y t hPO
      simp [finish, hUR, e2, hNU, e5]

/-- Whatever the outcome, Expected after a call is Expected before it, or Expected
with the metadata the owner block computed. -/
theorem expected_after_call {σ κ : Type} (lib : Lib) (p : Params σ κ)
    (s : σ) (k : κ)
    (hNU : ∀ f, p.NeedsUpdate = some f → ∀ x, (f x).2.expected = x.expected)
    (hUR : ∀ f, p.UpdateReconciled = some f → ∀ x, (f x).expected = x.expected)
    (hPC : ∀ f, p.PreCreate = some f → ∀ x, (f x).expected = x.expected)
    (hPU : ∀ f, p.PreUpdate = some f → ∀ x, (f x).expected = x.expected)
    (hPO : ∀ f, p.PostUpdate = some f → ∀ x, (f x).expected = x.expected) :
    (ReconcileResource lib p s k).expected = p.Expected.map (·.value) ∨
    ∃ e m, p.Expected = some e ∧
      stampOwner lib p.Owner e.value.ObjectMeta p.Scheme = .ok m ∧
      (ReconcileResource lib p s k).expected = some { e.value with ObjectMeta := m } := by
  rcases hE : p.Expected with _ | e
  · left; simp [ReconcileResource, Params.CheckNilValues, hE]; split <;> rfl
  rcases hR : p.Reconciled with _ | r
  · left; simp [ReconcileResource, Params.CheckNilValues, hE, hR]
  rcases hN : p.NeedsUpdate with _ | nu
  · left; simp [ReconcileResource, Params.CheckNilValues, hE, hR, hN]; split <;> rfl
  rcases hU : p.UpdateReconciled with _ | ur
  · left; simp [ReconcileResource, Params.CheckNilValues, hE, hR, hN, hU]
  cases hm : e.goType.implementsMetaObject
  · left; simp [ReconcileResource, Params.CheckNilValues, hE, hR, hN, hU, Accessor, hm, finish]
  rcases hg : lib.GVKForObject e.goType e.value p.Scheme with err | gvk
  · left; simp [ReconcileResource, Params.CheckNilValues, hE, hR, hN, hU, Accessor, hm, hg, finish]
  rcases ho : stampOwner lib p.Owner e.value.ObjectMeta p.Scheme with err | m1
  · left
    simp [ReconcileResource, Params.CheckNilValues, hE, hR, hN, hU, Accessor, hm, hg, ho, finish]
  right
  refine ⟨e, m1, rfl, ho, ?_⟩
  rcases hc : p.Client with _ | c
  · simp [ReconcileResource, Params.CheckNilValues, hE, hR, hN, hU, Accessor, hm, hg, ho, hc,
      finish]
  rcases hge : (c.Get s ⟨e.value.ObjectMeta.Namespace, e.value.ObjectMeta.Name⟩
      r.goType r.value).err with _ | ge
  · simp only [ReconcileResource, Params.CheckNilValues, hE, hR, hN, hU, Accessor, hm, hg, ho, hc,
      hge, Option.isNone_some, Bool.false_eq_true, if_false, if_true]
    rw [updatePath_expected _ _ _ _ _ _ _ _ (hNU nu hN) (hUR ur hU) hPU hPO]
  · cases hnf : IsNotFound ge
    · simp [ReconcileResource, Params.CheckNilValues, hE, hR, hN, hU, Accessor, hm, hg, ho, hc,
        hge, hnf, finish]
    · simp only [ReconcileResource, Params.CheckNilValues, hE, hR, hN, hU, Accessor, hm, hg, ho,
        hc, hge, hnf, Option.isNone_some, Bool.false_eq_true, if_false, if_true]
      rw [createPath_expected _ _ _ _ _ _ _ hPC]

/-- C6 as the code has it: the engine writes to Expected only in the owner block.
When the callbacks do not themselves write to Expected then, whatever the outcome
of the call, Expected is as before if no Owner is supplied; with an Owner it is
as before or it is Expected with the metadata `SetControllerReference` returned,
spec and status untouched. -/
theorem expected_written_only_by_owner_block {σ κ : Type} (lib : Lib) (p : Params σ κ)
    (s : σ) (k : κ)
    (hNU : ∀ f, p.NeedsUpdate = some f → ∀ x, (f x).2.expected = x.expected)
    (hUR : ∀ f, p.UpdateReconciled = some f → ∀ x, (f x).expected = x.expected)
    (hPC : ∀ f, p.PreCreate = some f → ∀ x, (f x).expected = x.expected)
    (hPU : ∀ f, p.PreUpdate = some f → ∀ x, (f x).expected = x.expected)
    (hPO : ∀ f, p.PostUpdate = some f → ∀ x, (f x).expected = x.expected) :
    (p.Owner = none →
      (ReconcileResource lib p s k).expected = p.Expected.map (·.value)) ∧
    (∀ o, p.Owner = some o →
      (ReconcileResource lib p s k).expected = p.Expected.map (·.value) ∨
      ∃ e m, p.Expected = some e ∧
        lib.SetControllerReference o e.value.ObjectMeta p.Scheme = .ok m ∧
        (ReconcileResource lib p s k).expected = some { e.value with ObjectMeta := m }) := by
  have key := expected_after_call lib p s k hNU hUR hPC hPU hPO
  constructor
  · intro hO
    rcases key with h | ⟨e, m, hE, hst, hrun⟩
    · exact h
    · rw [hO] at hst
      simp only [stampOwner, Except.ok.injEq] at hst
      rw [hrun, hE, ← hst]
      rfl
  · intro o hO
    rcases key with h | ⟨e, m, hE, hst, hrun⟩
    · exact Or.inl h
    · rw [hO] at hst
      exact Or.inr ⟨e, m, hE, hst, hrun⟩

/-- C6 as stated fails: with an Owner supplied and callbacks that never touch
Expected, the call on an empty store leaves Expected with an owner reference it
did not have before. -/
theorem expected_is_stamped_with_owner :
    (sampleParams (some sampleOwner) (some sampleBuffer)).Expected.map (·.value) = some sampleExpected ∧
    (ReconcileResource stdLib (sampleParams (some sampleOwner) (some sampleBuffer)) [] 0).expected =
      some { sampleExpected with ObjectMeta := { sampleExpected.ObjectMeta with
        OwnerReferences := [{ Kind := "Elasticsearch", Name := "es", UID := "owner-uid",
                              Controller := true }] } } ∧
    (ReconcileResource stdLib (sampleParams (some sampleOwner) (some sampleBuffer)) [] 0).expected ≠
      (sampleParams (some sampleOwner) (some sampleBuffer)).Expected.map (·.value) := by
  refine ⟨rfl, by decide, by decide⟩

/-- C6 as the code has it, on the sample call with and without its Owner. -/
theorem expected_written_only_by_owner_block_witness :
    (ReconcileResource stdLib (sampleParams none (some sampleBuffer)) [] 0).expected =
      some sampleExpected :=
  (expected_written_only_by_owner_block stdLib (sampleParams none (some sampleBuffer)) [] 0
    (fun _ hf x => by cases hf; rfl) (fun _ hf x => by cases hf; rfl)
    (fun _ hf x => by cases hf; rfl) (fun _ hf x => by cases hf; rfl)
    (fun _ hf x => by cases hf; rfl)).1 rfl

/-! ## Two calls in succession against a store -/

/-- After a Create against the store, successful or refused, the key of the
object handed in is present. -/
theorem storeClient_create_find (s : Store) (t : GoType) (o : Object) :
    (Store.find (storeClient.Create s t o).server (storeKey t o)).isSome = true := by
  cases hf : Store.find s (storeKey t o) with
  | none => simp [storeClient, hf, Store.find]
  | some old => simp [storeClient, hf]

/-- An optional hook extends the trace by its own event when it is set. -/
theorem callHook_trace {κ : Type} (hook : Option (Heap κ → Heap κ)) (ev : Event)
    (h : Heap κ) (tr : List Event) :
    (callHook hook ev h tr).2 = tr ++ (if hook.isSome then [ev] else []) := by
  cases hook <;> simp [callHook]

/-- The heap an optional hook leaves. -/
theorem callHook_heap {κ : Type} (hook : Option (Heap κ → Heap κ)) (ev : Event)
    (h : Heap κ) (tr : List Event) :
    (callHook hook ev h tr).1 = hook.getD id h := by
  cases hook <;> simp [callHook]

/-- The run of the create branch when the two types agree. -/
theorem createPath_eq {σ κ : Type} (p : Params σ κ) (c : Client σ) (t : GoType)
    (h : Heap κ) (s : σ) (trace : List Event) :
    createPath p c t t h s trace =
      finish (Outcome.returned (c.Create s t (p.PreCreate.getD id h).expected).err)
        (trace ++ (if p.PreCreate.isSome then [Event.PreCreate] else [])
          ++ [Event.Create (p.PreCreate.getD id h).expected])
        { p.PreCreate.getD id h with
          reconciled := (c.Create s t (p.PreCreate.getD id h).expected).obj }
        (c.Create s t (p.PreCreate.getD id h).expected).server := by
  cases hp : p.PreCreate <;> simp [createPath, callHook, hp]

/-- When NeedsUpdate returns true, the trace of the update branch records it. -/
theorem updatePath_true_mem {σ κ : Type} (p : Params σ κ) (c : Client σ) (tr : GoType)
    (nu : Heap κ → Bool × Heap κ) (ur : Heap κ → Heap κ) (h : Heap κ) (s : σ)
    (trace : List Event) (hb : (nu h).1 = true) :
    Event.NeedsUpdate true ∈ (updatePath p c tr nu ur h s trace).trace := by
  unfold updatePath
  simp only [hb, if_true]
  split <;> simp [finish, callHook_trace]

/-- When NeedsUpdate returns false, the update branch only records that. -/
theorem updatePath_false_trace {σ κ : Type} (p : Params σ κ) (c : Client σ) (tr : GoType)
    (nu : Heap κ → Bool × Heap κ) (ur : Heap κ → Heap κ) (h : Heap κ) (s : σ)
    (trace : List Event) (hb : (nu h).1 = false) :
    (updatePath p c tr nu ur h s trace).trace = trace ++ [Event.NeedsUpdate false] := by
  simp [updatePath, hb, finish]

/-- Against the store, a call whose resource is present and in which NeedsUpdate
never returns true performs no write. -/
theorem no_write_when_present {κ : Type} (lib : Lib) (q : Params Store κ) (s : Store) (k : κ)
    (e r : RuntimeObject)
    (hC : q.Client = some storeClient) (hE : q.Expected = some e) (hR : q.Reconciled = some r)
    (hfound : (Store.find s (r.goType.name,
      { Namespace := e.value.ObjectMeta.Namespace, Name := e.value.ObjectMeta.Name })).isSome = true)
    (hq : Event.NeedsUpdate true ∉ (ReconcileResource lib q s k).trace) :
    (ReconcileResource lib q s k).trace.countP Event.isWrite = 0 := by
  rcases hN : q.NeedsUpdate with _ | nu
  · simp [ReconcileResource, Params.CheckNilValues, hE, hR, hN]; split <;> simp
  rcases hU : q.UpdateReconciled with _ | ur
  · simp [ReconcileResource, Params.CheckNilValues, hE, hR, hN, hU]
  cases hm : e.goType.implementsMetaObject
  · simp [ReconcileResource, Params.CheckNilValues, hE, hR, hN, hU, Accessor, hm, finish]
  rcases hg : lib.GVKForObject e.goType e.value q.Scheme with err | gvk
  · simp [ReconcileResource, Params.CheckNilValues, hE, hR, hN, hU, Accessor, hm, hg, finish]
  rcases ho : stampOwner lib q.Owner e.value.ObjectMeta q.Scheme with err | m1
  · simp [ReconcileResource, Params.CheckNilValues, hE, hR, hN, hU, Accessor, hm, hg, ho, finish]
  obtain ⟨live, hlive⟩ := Option.isSome_iff_exists.1 hfound
  have hget : storeClient.Get s ⟨e.value.ObjectMeta.Namespace, e.value.ObjectMeta.Name⟩
      r.goType r.value = { err := none, obj := live, server := s } := by
    simp [storeClient, hlive]
  have hrun : ReconcileResource lib q s k =
      updatePath q storeClient r.goType nu ur
        { expected := { e.value with ObjectMeta := m1 }, reconciled := live, caller := k } s
        [Event.Get ⟨e.value.ObjectMeta.Namespace, e.value.ObjectMeta.Name⟩] := by
    simp only [ReconcileResource, Params.CheckNilValues, hE, hR, hN, hU, Accessor, hm, hg, ho, hC,
      hget, Option.isNone_some, Bool.false_eq_true, if_false, if_true]
  rw [hrun] at hq ⊢
  cases hb : (nu ⟨{ e.value with ObjectMeta := m1 }, live, k⟩).1
  · rw [updatePath_false_trace _ _ _ _ _ _ _ _ hb]
    rfl
  · exact absurd (updatePath_true_mem _ _ _ _ _ _ _ _ hb) hq

/-- C5: against the store client, starting from a store that does not hold the
resource, a first call creates it (one Create, no Update) and a second call with
the same Params, in which NeedsUpdate does not return true, performs no Create
and no Update: one write in total. -/
theorem one_write_over_two_calls {κ : Type} (lib : Lib) (p : Params Store κ) (s : Store) (k : κ)
    (e r : RuntimeObject) (nu : Heap κ → Bool × Heap κ) (ur : Heap κ → Heap κ)
    (gvk : GroupVersionKind) (m1 : ObjectMeta)
    (hC : p.Client = some storeClient) (hE : p.Expected = some e) (hR : p.Reconciled = some r)
    (hNU : p.NeedsUpdate = some nu) (hUR : p.UpdateReconciled = some ur)
    (hty : e.goType = r.goType)
    (hmeta : e.goType.implementsMetaObject = true)
    (hgvk : lib.GVKForObject e.goType e.value p.Scheme = .ok gvk)
    (hown : stampOwner lib p.Owner e.value.ObjectMeta p.Scheme = .ok m1)
    (habsent : Store.find s (r.goType.name,
      { Namespace := e.value.ObjectMeta.Namespace, Name := e.value.ObjectMeta.Name }) = none)
    (hquiet : Event.NeedsUpdate true ∉
      (ReconcileResource lib (p.rebind (ReconcileResource lib p s k))
        (ReconcileResource lib p s k).server (ReconcileResource lib p s k).caller).trace) :
    (ReconcileResource lib p s k).trace.countP Event.isCreate = 1 ∧
    (ReconcileResource lib p s k).trace.countP Event.isUpdate = 0 ∧
    (ReconcileResource lib (p.rebind (ReconcileResource lib p s k))
      (ReconcileResource lib p s k).server (ReconcileResource lib p s k).caller).trace.countP
        Event.isWrite = 0 ∧
    ((ReconcileResource lib p s k).trace ++
      (ReconcileResource lib (p.rebind (ReconcileResource lib p s k))
        (ReconcileResource lib p s k).server (ReconcileResource lib p s k).caller).trace).countP
        Event.isWrite = 1 := by
  have hget : storeClient.Get s ⟨e.value.ObjectMeta.Namespace, e.value.ObjectMeta.Name⟩
      r.goType r.value =
      { err := some (Error.status .NotFound
          (e.value.ObjectMeta.Namespace ++ "/" ++ e.value.ObjectMeta.Name ++ " not found")),
        obj := r.value, server := s } := by
    simp [storeClient, habsent]
  rw [hty] at hmeta hgvk
  have hrun : ReconcileResource lib p s k =
      createPath p storeClient r.goType r.goType
        { expected := { e.value with ObjectMeta := m1 }, reconciled := r.value, caller := k } s
        [Event.Get ⟨e.value.ObjectMeta.Namespace, e.value.ObjectMeta.Name⟩] := by
    simp only [ReconcileResource, Params.CheckNilValues, hE, hR, hNU, hUR, Accessor, hty, hmeta,
      hgvk, hown, hC, hget, IsNotFound, Option.isNone_some, Bool.false_eq_true, if_false, if_true]
  rw [createPath_eq] at hrun
  generalize p.PreCreate.getD id
    { expected := { e.value with ObjectMeta := m1 }, reconciled := r.value, caller := k } = h1
    at hrun
  rw [hrun] at hquiet ⊢
  have h1c : ([Event.Get ⟨e.value.ObjectMeta.Namespace, e.value.ObjectMeta.Name⟩] ++
      (if p.PreCreate.isSome then [Event.PreCreate] else []) ++
      [Event.Create h1.expected]).countP Event.isCreate = 1 := by
    cases p.PreCreate.isSome <;> rfl
  have h1u : ([Event.Get ⟨e.value.ObjectMeta.Namespace, e.value.ObjectMeta.Name⟩] ++
      (if p.PreCreate.isSome then [Event.PreCreate] else []) ++
      [Event.Create h1.expected]).countP Event.isUpdate = 0 := by
    cases p.PreCreate.isSome <;> rfl
  have h1w : ([Event.Get ⟨e.value.ObjectMeta.Namespace, e.value.ObjectMeta.Name⟩] ++
      (if p.PreCreate.isSome then [Event.PreCreate] else []) ++
      [Event.Create h1.expected]).countP Event.isWrite = 1 := by
    cases p.PreCreate.isSome <;> rfl
  have h2 := no_write_when_present lib _ _ _
    { e with value := h1.expected }
    { r with value := (storeClient.Create s r.goType h1.expected).obj }
    (by simp [Params.rebind, hC]) (by simp [Params.rebind, hE, finish])
    (by simp [Params.rebind, hR, finish])
    (storeClient_create_find s r.goType h1.expected) hquiet
  refine ⟨h1c, h1u, h2, ?_⟩
  have h12 := congrArg₂ (fun a b : Nat => a + b) h1w h2
  rw [List.countP_append]
  exact h12

/-- C5, on the sample Secret and an empty store. -/
theorem one_write_over_two_calls_witness :
    ((ReconcileResource stdLib (sampleParams none (some sampleBuffer)) [] 0).trace ++
      (ReconcileResource stdLib
        ((sampleParams none (some sampleBuffer)).rebind
          (ReconcileResource stdLib (sampleParams none (some sampleBuffer)) [] 0))
        (ReconcileResource stdLib (sampleParams none (some sampleBuffer)) [] 0).server
        (ReconcileResource stdLib (sampleParams none (some sampleBuffer)) [] 0).caller).trace).countP
        Event.isWrite = 1 :=
  (one_write_over_two_calls stdLib (sampleParams none (some sampleBuffer)) [] 0
    { goType := secretType, value := sampleExpected } sampleBuffer _ _
    { Group := "", Version := "v1", Kind := "Secret" } sampleExpected.ObjectMeta
    rfl rfl rfl rfl rfl rfl rfl rfl rfl rfl (by decide)).2.2.2

end Reconciler

namespace Services

/-! ## The base URL of the cluster -/

/-- The loop of `ElasticsearchURL` started from any flag: it ends true exactly when
the flag was set or some pod carries a differing scheme label. -/
theorem schemeChange_foldl {H : Type} (d : Deps H) (es : Elasticsearch H) (pods : List Pod)
    (change : Bool) :
    pods.foldl (fun change p =>
      match p.Labels.get HTTPSchemeLabelName with
      | some scheme => if scheme ≠ d.Scheme es.Spec.HTTP then true else change
      | none => change) change = true ↔
    (change = true ∨ ∃ p ∈ pods, ∃ scheme, p.Labels.get HTTPSchemeLabelName = some scheme ∧
      scheme ≠ d.Scheme es.Spec.HTTP) := by
  induction pods generalizing change with
  | nil => simp
  | cons p rest ih =>
    rw [List.foldl_cons, ih]
    cases hl : p.Labels.get HTTPSchemeLabelName with
    | none => simp [hl]
    | some scheme =>
      by_cases hs : scheme = d.Scheme es.Spec.HTTP
      · simp [hl, hs]
      · simp [hl, hs]

/-- The flag `schemeChange` is set exactly when some pod carries a scheme label that
differs from the scheme of the spec. -/
theorem schemeChange_iff {H : Type} (d : Deps H) (es : Elasticsearch H) (pods : List Pod) :
    schemeChange d es pods = true ↔
    ∃ p ∈ pods, ∃ scheme, p.Labels.get HTTPSchemeLabelName = some scheme ∧
      scheme ≠ d.Scheme es.Spec.HTTP := by
  unfold schemeChange
  rw [schemeChange_foldl]
  simp

/-- C8: when no pod carries a scheme label that differs from the scheme of the spec
(every pod's label equals it, or the list is empty), `ElasticsearchURL` returns
`ExternalServiceURL(es)` whatever the random source holds, so that any two calls
with the same arguments agree. -/
theorem steady_state_url {H : Type} (d : Deps H) (es : Elasticsearch H) (pods : List Pod)
    (src : Nat)
    (h : ∀ p ∈ pods, ∀ scheme, p.Labels.get HTTPSchemeLabelName = some scheme →
      scheme = d.Scheme es.Spec.HTTP) :
    ElasticsearchURL d es pods src = some (ExternalServiceURL d es) ∧
    ∀ src2, ElasticsearchURL d es pods src2 = ElasticsearchURL d es pods src := by
  have hno : schemeChange d es pods = false := by
    rw [Bool.eq_false_iff]
    intro hc
    obtain ⟨p, hp, scheme, hl, hne⟩ := (schemeChange_iff d es pods).1 hc
    exact hne (h p hp scheme hl)
  have hall : ∀ n, ElasticsearchURL d es pods n = some (ExternalServiceURL d es) := by
    intro n
    simp [ElasticsearchURL, hno]
  exact ⟨hall src, fun src2 => by rw [hall src2, hall src]⟩

/-- C8, on two pods labelled https under a spec that declares https. -/
theorem steady_state_url_witness :
    ElasticsearchURL sampleDeps sampleES [podHTTPS, podHTTPS] 7 = some "https://es-es-http.ns.svc:9200" :=
  (steady_state_url sampleDeps sampleES [podHTTPS, podHTTPS] 7 (by decide)).1

/-- C9, evaluated where the code departs from it: the spec declares https, the pod
`es-default-0` is still labelled http and carries its StatefulSet label, the pod
`es-old-0` carries no label.  When the random choice falls on the first pod its
direct address is returned; when it falls on the second the guard of line 113
fails and the external service URL is returned, although the docstring of
`ElasticsearchURL` has a scheme mismatch switch to requesting pods directly and
an addressable pod is in the list. -/
theorem service_url_despite_scheme_change :
    (∃ p ∈ [podHTTP, podBare], ∃ scheme, p.Labels.get HTTPSchemeLabelName = some scheme ∧
      scheme ≠ sampleDeps.Scheme sampleES.Spec.HTTP) ∧
    schemeChange sampleDeps sampleES [podHTTP, podBare] = true ∧
    ElasticsearchURL sampleDeps sampleES [podHTTP, podBare] 0 =
      some "http://es-default-0.es-default.ns:9200" ∧
    ExternalServiceURL sampleDeps sampleES = "https://es-es-http.ns.svc:9200" ∧
    ElasticsearchURL sampleDeps sampleES [podHTTP, podBare] 1 =
      some (ExternalServiceURL sampleDeps sampleES) :=
  ⟨⟨podHTTP, by decide, "http", by decide, by decide⟩, by decide, by decide, by decide, by decide⟩

end Services

namespace Sset

/-! ## StatefulSets pending an update -/

/-- The loop of `ToUpdate` started from any accumulator appends the StatefulSets that
pass the test, in input order. -/
theorem toUpdate_foldl (l acc : StatefulSetList) :
    l.foldl (fun toUpdate s =>
      if s.Status.UpdateRevision ≠ "" ∧ s.Status.UpdateRevision ≠ s.Status.CurrentRevision then
        toUpdate ++ [s]
      else toUpdate) acc =
    acc ++ l.filter (fun s => decide (s.Status.UpdateRevision ≠ "" ∧
      s.Status.UpdateRevision ≠ s.Status.CurrentRevision)) := by
  induction l generalizing acc with
  | nil => simp
  | cons s rest ih =>
    rw [List.foldl_cons, ih]
    by_cases hs : s.Status.UpdateRevision ≠ "" ∧ s.Status.UpdateRevision ≠ s.Status.CurrentRevision
    · simp [List.filter_cons, hs]
    · simp [List.filter_cons, hs]

/-- C10: `ToUpdate` returns the StatefulSets whose UpdateRevision is non-empty and
differs from CurrentRevision, and only those, in input order: it is the filter
of the list by that test, hence a sub-list of it; a StatefulSet with an empty
UpdateRevision is never in it; the empty list yields the empty list; and the
four StatefulSets of the test yield the two expected ones. -/
theorem toUpdate_spec (l : StatefulSetList) :
    l.ToUpdate = l.filter (fun s => decide (s.Status.UpdateRevision ≠ "" ∧
      s.Status.UpdateRevision ≠ s.Status.CurrentRevision)) ∧
    List.Sublist l.ToUpdate l ∧
    (∀ s, s ∈ l.ToUpdate ↔ (s ∈ l ∧ s.Status.UpdateRevision ≠ "" ∧
      s.Status.UpdateRevision ≠ s.Status.CurrentRevision)) ∧
    (∀ s ∈ l, s.Status.UpdateRevision = "" → s ∉ l.ToUpdate) ∧
    StatefulSetList.ToUpdate [] = [] ∧
    StatefulSetList.ToUpdate [noUpdateRev, toUpdate1, updateMatchCurrent, toUpdate2] =
      [toUpdate1, toUpdate2] := by
  have heq : l.ToUpdate = l.filter (fun s => decide (s.Status.UpdateRevision ≠ "" ∧
      s.Status.UpdateRevision ≠ s.Status.CurrentRevision)) := by
    unfold StatefulSetList.ToUpdate
    rw [toUpdate_foldl]
    simp
  refine ⟨heq, ?_, ?_, ?_, rfl, by decide⟩
  · rw [heq]
    exact List.filter_sublist l
  · intro s
    rw [heq]
    simp [List.mem_filter]
  · intro s _ hempty hmem
    rw [heq] at hmem
    simp [List.mem_filter, hempty] at hmem

end Sset

namespace Sset

/-! ## Version predicates -/

/-- C12: a label map without the version label makes `ExtractVersion` return the
error "version label ... is missing" and no version, whatever the parser; hence
`ESVersionMatch` on a StatefulSet whose template carries no version label is
false for every predicate, the always-true one included, and being a boolean it
is never an error; and when the label is present and parses to `v`,
`ESVersionMatch` returns the predicate at `v`. -/
theorem version_match_fail_closed {V : Type} (Parse : String → Except Reconciler.Error V)
    (statefulSet : StatefulSet) (condition : V → Bool)
    (h : statefulSet.TemplateLabels.get Label.VersionLabelName = none) :
    (∀ labels : Services.Labels, labels.get Label.VersionLabelName = none →
      Label.ExtractVersion Parse labels =
        .error (Reconciler.Error.msg
          ("version label " ++ Label.VersionLabelName ++ " is missing"))) ∧
    ESVersionMatch Parse statefulSet condition = false ∧
    ESVersionMatch Parse statefulSet (fun _ => true) = false ∧
    (∀ (other : StatefulSet) (labelValue : String) (v : V),
      other.TemplateLabels.get Label.VersionLabelName = some labelValue →
      Parse labelValue = .ok v →
      Label.ExtractVersion Parse other.TemplateLabels = .ok v ∧
      ESVersionMatch Parse other condition = condition v) := by
  refine ⟨?_, ?_, ?_, ?_⟩
  · intro labels hl
    simp [Label.ExtractVersion, hl]
  · simp [ESVersionMatch, Label.ExtractVersion, h]
  · simp [ESVersionMatch, Label.ExtractVersion, h]
  · intro other labelValue v hl hp
    simp [ESVersionMatch, Label.ExtractVersion, hl, hp]

/-- C12, on a StatefulSet without template labels and on `ssetv7` of the test. -/
theorem version_match_fail_closed_witness :
    ESVersionMatch sampleParse toUpdate1 (fun _ => true) = false ∧
    ESVersionMatch sampleParse ssetv7 (fun v => decide (v.Major = 7)) = true ∧
    ESVersionMatch sampleParse ssetv7 (fun v => decide (v.Major = 6)) = false :=
  ⟨(version_match_fail_closed sampleParse toUpdate1 (fun v => decide (v.Major = 7)) rfl).2.2.1,
   ((version_match_fail_closed sampleParse toUpdate1 (fun v => decide (v.Major = 7)) rfl).2.2.2
      ssetv7 "7.1.0" { Major := 7, Minor := 1, Patch := 0 } rfl rfl).2,
   ((version_match_fail_closed sampleParse toUpdate1 (fun v => decide (v.Major = 6)) rfl).2.2.2
      ssetv7 "7.1.0" { Major := 7, Minor := 1, Patch := 0 } rfl rfl).2⟩

end Sset

namespace Services

/-! ## The random choice of a pod -/

/-- C13: `ElasticsearchURL` never panics.  Whenever the flag `schemeChange` is set
the list of pods is not empty, so `rand.Intn` receives a positive bound and the
index it yields lies within the list; on the empty (or nil) list the flag stays
unset and the external service URL is returned. -/
theorem random_choice_in_bounds {H : Type} (d : Deps H) (es : Elasticsearch H)
    (pods : List Pod) (src : Nat) :
    (ElasticsearchURL d es pods src).isSome = true ∧
    (schemeChange d es pods = true →
      0 < pods.length ∧
      ∃ i, Intn src pods.length = some i ∧ i < pods.length ∧ (pods[i]?).isSome = true) ∧
    schemeChange d es [] = false ∧
    ElasticsearchURL d es [] src = some (ExternalServiceURL d es) := by
  have hpos : schemeChange d es pods = true → 0 < pods.length := by
    intro hc
    obtain ⟨p, hp, -⟩ := (schemeChange_iff d es pods).1 hc
    exact List.length_pos_of_mem hp
  refine ⟨?_, ?_, rfl, rfl⟩
  · cases hc : schemeChange d es pods with
    | false => simp [ElasticsearchURL, hc]
    | true =>
      have hlen := hpos hc
      have hi : src % pods.length < pods.length := Nat.mod_lt _ hlen
      simp only [ElasticsearchURL, hc, if_true, Intn, hlen, List.getElem?_eq_getElem hi]
      split <;> rfl
  · intro hc
    have hlen := hpos hc
    have hi : src % pods.length < pods.length := Nat.mod_lt _ hlen
    exact ⟨hlen, src % pods.length, by simp [Intn, hlen], hi, by simp [hi]⟩

end Services
